import Mathlib

/-!
Shallow embedding of `src/python_ref/query.py` (eco-trail query module).

JSON values are modelled by `JVal` (numbers as rationals, which cover every
numeric comparison the code performs). A record (Python `dict` produced by
`json.load`) is an association list with first-key-wins lookup, matching
Python dict semantics since parsed dicts hold unique keys. Functions that
can raise a `TypeError`/`AttributeError` in Python are embedded as `Option`
valued functions, `none` standing for a propagated exception. The string
operations `lower`, `strip` and the `in` substring test are embedded over
character lists (`lower` handles the ASCII range, which is all the claims
exercise).
-/

namespace EcoTrails

/-- A JSON value as produced by `json.load`. -/
inductive JVal where
  | null
  | bool (b : Bool)
  | num (q : Rat)
  | str (s : String)
  | arr (items : List JVal)
  | obj (fields : List (String × JVal))

/-- An object-shaped JSON record (a Python dict with string keys). -/
abbrev Trail := List (String × JVal)

/-- Python `d.get(k)`: the value at the first entry with key `k`, if any. -/
def pyGet (d : Trail) (k : String) : Option JVal :=
  (d.find? (fun p => p.1 == k)).map (fun p => p.2)

/-- Python `d.get(k, v)`: lookup with a default. -/
def pyGetD (d : Trail) (k : String) (v : JVal) : JVal :=
  (pyGet d k).getD v

/-- Python `d[k] = v`: overwrite the entry if the key exists, else append. -/
def pySet (d : Trail) (k : String) (v : JVal) : Trail :=
  if d.any (fun p => p.1 == k) then
    d.map (fun p => if p.1 == k then (k, v) else p)
  else
    d ++ [(k, v)]

/-- Python truthiness of a JSON value (`if not x`). -/
def pyTruthy : JVal → Bool
  | .null => false
  | .bool b => b
  | .num q => q != 0
  | .str s => !s.data.isEmpty
  | .arr l => !l.isEmpty
  | .obj f => !f.isEmpty

/-- Python `isinstance(v, str)`; `none` when a string method on `v` would raise. -/
def asStr : JVal → Option String
  | .str s => some s
  | _ => none

/-- Python `isinstance(v, dict)`; `none` when `.get` on `v` would raise. -/
def asObj : JVal → Option Trail
  | .obj f => some f
  | _ => none

/-- Python `isinstance(v, (int, float))`: numbers, and booleans because
Python `bool` is a subclass of `int` (`True` counts as `1`). -/
def asNum : JVal → Option Rat
  | .num q => some q
  | .bool b => some (if b then 1 else 0)
  | _ => none

/-- Python `v == s` for a string `s`: equal strings compare equal, any
non-string JSON value compares unequal (never raising). -/
def pyStrEq (s : String) : JVal → Bool
  | .str t => s == t
  | _ => false

/-- Python `s.lower()` over the ASCII range. -/
def pyLower (s : String) : String := String.mk (s.data.map Char.toLower)

/-- Python `s.strip()`: drop leading and trailing whitespace. -/
def pyStrip (s : String) : String :=
  String.mk (((s.data.dropWhile Char.isWhitespace).reverse.dropWhile
    Char.isWhitespace).reverse)

/-- Does `hay` start with `needle` (character lists)? -/
def startsList : List Char → List Char → Bool
  | [], _ => true
  | _ :: _, [] => false
  | a :: as, b :: bs => a == b && startsList as bs

/-- Is `needle` a contiguous run of `hay` (character lists)? -/
def runIn (needle : List Char) : List Char → Bool
  | [] => needle.isEmpty
  | c :: rest => startsList needle (c :: rest) || runIn needle rest

/-- Python `needle in hay` for strings: contiguous substring test. -/
def strContains (hay needle : String) : Bool := runIn needle.data hay.data

/-- Embedding of `_has_valid_coordinates` (query.py lines 303 to 340): the
`try` block returns `False` when `location` is not a dict (its `.get` would
raise) or `coordinates` fails the explicit `isinstance` check, and otherwise
checks that `lat` and `lng` are numeric and inside the legal bounds. -/
def has_valid_coordinates (trail : Trail) : Bool :=
  match pyGetD trail "location" (.obj []) with
  | .obj loc =>
    match pyGetD loc "coordinates" (.obj []) with
    | .obj coords =>
      match asNum (pyGetD coords "lat" .null), asNum (pyGetD coords "lng" .null) with
      | some lat, some lng =>
        decide (-90 ≤ lat) && decide (lat ≤ 90) &&
          decide (-180 ≤ lng) && decide (lng ≤ 180)
      | _, _ => false
    | _ => false
  | _ => false

/-- The keyword generator of `search_trails` (query.py line 89):
`any(normalized_query in keyword.lower() for keyword in location_keywords)`.
Lazily lowers each keyword; a non-string keyword reached before a match
raises (`none`). -/
def kwAny (q : String) : List JVal → Option Bool
  | [] => some false
  | v :: rest =>
    match asStr v with
    | none => none
    | some s => if strContains (pyLower s) q then some true else kwAny q rest

/-- Python iteration `for x in v` as used on `location.keywords`: lists
yield their items, strings their characters, dicts their keys; every other
value raises a `TypeError` (`none`). -/
def pyIterate : JVal → Option (List JVal)
  | .arr l => some l
  | .str s => some (s.data.map (fun c => .str (String.mk [c])))
  | .obj f => some (f.map (fun p => .str p.1))
  | _ => none

/-- One loop iteration of `search_trails` (query.py lines 64 to 98): skip a
record without valid coordinates, then test the lowered query against name,
description, region, each location keyword, and difficulty in this order,
stopping at the first match; `none` models a raised
`AttributeError`/`TypeError` on a non-string field. -/
def searchOne (q : String) (trail : Trail) : Option Bool :=
  if !has_valid_coordinates trail then some false else do
    let name ← asStr (pyGetD trail "name" (.str ""))
    if strContains (pyLower name) q then return true
    let desc ← asStr (pyGetD trail "description" (.str ""))
    if strContains (pyLower desc) q then return true
    let loc ← asObj (pyGetD trail "location" (.obj []))
    let region ← asStr (pyGetD loc "region" (.str ""))
    if strContains (pyLower region) q then return true
    let loc2 ← asObj (pyGetD trail "location" (.obj []))
    let kws ← pyIterate (pyGetD loc2 "keywords" (.arr []))
    let kmatch ← kwAny q kws
    if kmatch then return true
    let details ← asObj (pyGetD trail "trail_details" (.obj []))
    let diff ← asStr (pyGetD details "difficulty" (.str ""))
    if strContains (pyLower diff) q then return true
    return false

/-- The main loop of `search_trails`: accumulate matching records in order;
a raised exception in any iteration propagates (`none`). -/
def searchGo (q : String) : List Trail → Option (List Trail)
  | [] => some []
  | t :: rest => do
    let m ← searchOne q t
    let r ← searchGo q rest
    return if m then t :: r else r

/-- Embedding of `search_trails` (query.py lines 32 to 101), with the loaded
collection passed explicitly in place of the `load_trail_data()` call. An
empty query, or one that strips to empty, returns `[]` before the loop. -/
def search_trails (query : String) (trails : List Trail) : Option (List Trail) :=
  if query.data.isEmpty then some [] else
  let normalized_query := pyStrip (pyLower query)
  if normalized_query.data.isEmpty then some [] else
  searchGo normalized_query trails

/-- Embedding of `get_trail_by_id` (query.py lines 104 to 131): reject an
empty id, then return the first record whose `id` equals the argument. -/
def get_trail_by_id (trail_id : String) (trails : List Trail) : Option Trail :=
  if trail_id.data.isEmpty then none else
  trails.find? (fun t => pyStrEq trail_id (pyGetD t "id" .null))

end EcoTrails

namespace EcoTrails

/-- Criterion normalisation in `advanced_search` (query.py lines 173 to 175):
`region.lower().strip() if region else None`; an absent or empty argument
yields `none`. Note a whitespace-only argument normalises to the empty
string, which the loop body then treats as an inactive criterion. -/
def normCrit (o : Option String) : Option String :=
  o.bind (fun r => if r.data.isEmpty then none else some (pyStrip (pyLower r)))

/-- Season normalisation in `advanced_search` (line 175): strip only. -/
def normSeason (o : Option String) : Option String :=
  o.bind (fun r => if r.data.isEmpty then none else some (pyStrip r))

/-- Python truthiness of a normalised criterion (`if region_normalized:`):
`None` and the empty string are inactive. -/
def critActive : Option String → Bool
  | some s => !s.data.isEmpty
  | none => false

/-- The loop body of `advanced_search` (query.py lines 177 to 203), which in
the source never executes because the loop ranges over the empty
accumulator: a record matches when every active criterion holds, testing
region then difficulty as lowered substring matches and season as exact
membership in `best_season` (a non-list `best_season` fails the season
criterion); later criteria are skipped once the flag is false. -/
def matchesCriteria (rN dN sN : Option String) (t : Trail) : Option Bool := do
  let m1 ← if critActive rN then do
      let loc ← asObj (pyGetD t "location" (.obj []))
      let reg ← asStr (pyGetD loc "region" (.str ""))
      pure (strContains (pyLower reg) (rN.getD ""))
    else pure true
  if !m1 then return false
  let m2 ← if critActive dN then do
      let det ← asObj (pyGetD t "trail_details" (.obj []))
      let diff ← asStr (pyGetD det "difficulty" (.str ""))
      pure (strContains (pyLower diff) (dN.getD ""))
    else pure true
  if !m2 then return false
  if critActive sN then
    match pyGetD t "best_season" (.arr []) with
    | .arr seasons => return seasons.any (pyStrEq (sN.getD ""))
    | _ => return false
  else return true

/-- Embedding of `advanced_search` (query.py lines 146 to 206). The source
binds the loaded collection to `trails_data` but the `for` loop ranges over
`filtered_trails`, the accumulator, which is empty when the loop starts, so
the body never runs and the empty accumulator is returned. -/
def advanced_search (region difficulty best_season : Option String)
    (trails : List Trail) : List Trail :=
  let _trails_data := trails
  let _region_normalized := normCrit region
  let _difficulty_normalized := normCrit difficulty
  let _season_normalized := normSeason best_season
  let filtered_trails : List Trail := []
  filtered_trails

/-- Modelled from the spec (section 4.3, `advancedSearch`), for comparison
with the source `advanced_search`: filter the loaded collection by all
provided criteria, each record judged by the loop body `matchesCriteria`. -/
def advanced_search_spec (region difficulty best_season : Option String)
    (trails : List Trail) : List Trail :=
  trails.filter (fun t =>
    matchesCriteria (normCrit region) (normCrit difficulty)
      (normSeason best_season) t == some true)

end EcoTrails

namespace EcoTrails

/-- The metadata stamp of `load_trail_data` (query.py lines 274 to 275):
set `_loaded_at` to the load time and `_index` to the position of the
record in the original `eco_trails` list. -/
def stampRecord (now : String) (index : Nat) (d : Trail) : Trail :=
  pySet (pySet d "_loaded_at" (.str now)) "_index" (.num (index : Rat))

/-- The admission loop of `load_trail_data` (query.py lines 257 to 277):
walk `eco_trails` with its enumeration index, skip elements that are not
dicts, skip dicts whose `id` is missing or falsy, warn but keep records
without a `name`, and stamp each kept record. -/
def loadGo (now : String) : Nat → List JVal → List Trail
  | _, [] => []
  | index, v :: rest =>
    match v with
    | .obj d =>
      if pyTruthy (pyGetD d "id" .null) then
        stampRecord now index d :: loadGo now (index + 1) rest
      else loadGo now (index + 1) rest
    | _ => loadGo now (index + 1) rest

/-- Is a JSON value `.obj`? (`isinstance(raw_data, dict)`). -/
def isObjVal : JVal → Bool
  | .obj _ => true
  | _ => false

/-- Is a JSON value `.arr`? (`isinstance(v, list)`). -/
def isArrVal : JVal → Bool
  | .arr _ => true
  | _ => false

/-- Does the `eco_trails` field hold a list? (`isinstance(eco_trails, list)`,
where a missing field yields `None` and also fails). -/
def ecoTrailsIsList (fields : Trail) : Bool :=
  match pyGet fields "eco_trails" with
  | some (.arr _) => true
  | _ => false

/-- The parse-and-validate phase of `load_trail_data` (query.py lines 249 to
277) on an already JSON-parsed value: `ValueError` when the top level is not
an object or `eco_trails` is not a list, otherwise the admitted records. -/
def parseEcoTrails (now : String) (v : JVal) : Except String (List Trail) :=
  match v with
  | .obj fields =>
    match pyGet fields "eco_trails" with
    | some (.arr ts) => .ok (loadGo now 0 ts)
    | _ => .error "eco_trails must be a list"
  | _ => .error "top level must be an object"

/-- What reading the data file can yield: a JSON parse failure
(`json.JSONDecodeError`) or a parsed JSON value. -/
inductive FileContent where
  | malformed
  | parsed (v : JVal)

/-- The state of the data file: absent, or present with a modification
timestamp and content. -/
inductive FS where
  | absent
  | present (mtime : Nat) (content : FileContent)

/-- The module-level cache globals `_data_cache` and `_cache_timestamp`. -/
structure CacheState where
  data : Option (List Trail)
  stamp : Option Nat

/-- The observable outcome of one `load_trail_data()` call: the returned
collection, the cache globals afterwards, and whether the file was opened
and read. -/
structure LoadOutcome where
  result : List Trail
  cache : CacheState
  didRead : Bool

/-- The read-and-parse path of `load_trail_data` (query.py lines 242 to
300): parse failures and `ValueError` are caught and produce `[]` without
touching the cache; a successful parse replaces both cache globals. -/
def loadRead (now : String) (mtime : Nat) (content : FileContent)
    (cache : CacheState) : LoadOutcome :=
  match content with
  | .malformed => ⟨[], cache, true⟩
  | .parsed v =>
    match parseEcoTrails now v with
    | .ok ts => ⟨ts, ⟨some ts, some mtime⟩, true⟩
    | .error _ => ⟨[], cache, true⟩

/-- Embedding of `load_trail_data` (query.py lines 212 to 300) as a state
transformer on the cache: an absent file returns `[]` without reading; a
present file whose mtime equals the cached stamp (with a cached collection)
returns the cache unchanged without reading; otherwise the file is read. -/
def load_stateful (now : String) (fs : FS) (cache : CacheState) : LoadOutcome :=
  match fs with
  | .absent => ⟨[], cache, false⟩
  | .present mtime content =>
    match cache.data with
    | some d =>
      if cache.stamp == some mtime then ⟨d, cache, false⟩
      else loadRead now mtime content cache
    | none => loadRead now mtime content cache

/-- A cold-cache `load_trail_data()` call: just the returned collection. -/
def load_trail_data (now : String) (fs : FS) : List Trail :=
  (load_stateful now fs ⟨none, none⟩).result

/-- The canonical well-formed data file holding `eco_trails` as a list. -/
def ecoFile (mtime : Nat) (src : List JVal) : FS :=
  .present mtime (.parsed (.obj [("eco_trails", .arr src)]))

end EcoTrails

namespace EcoTrails

/-- Is a JSON value hashable in Python, hence usable as a dict key?
Lists and dicts are unhashable (`TypeError`). -/
def pyHashable : JVal → Bool
  | .arr _ => false
  | .obj _ => false
  | _ => true

/-- Python `==` between hashable JSON values as used for dict keys:
numbers and booleans compare by numeric value (`True == 1`). -/
def pyKeyEq : JVal → JVal → Bool
  | .str a, .str b => a == b
  | .num a, .num b => a == b
  | .num a, .bool b => a == (if b then (1 : Rat) else 0)
  | .bool a, .num b => (if a then (1 : Rat) else 0) == b
  | .bool a, .bool b => a == b
  | .null, .null => true
  | _, _ => false

/-- A counting dict (insertion ordered, unique keys up to `pyKeyEq`). -/
abbrev Counts := List (JVal × Nat)

/-- Python `counts[key] = counts.get(key, 0) + 1`: increment the entry of
the first key equal to `key`, or append a fresh entry with count 1. -/
def bump : Counts → JVal → Counts
  | [], k => [(k, 1)]
  | (k1, n) :: rest, k =>
    if pyKeyEq k1 k then (k1, n + 1) :: rest else (k1, n) :: bump rest k

/-- The season loop of `get_data_statistics` (query.py lines 394 to 395):
bump each listed season; an unhashable season raises (`none`). -/
def bumpSeasons : Counts → List JVal → Option Counts
  | m, [] => some m
  | m, s :: rest => if pyHashable s then bumpSeasons (bump m s) rest else none

/-- One loop iteration of `get_data_statistics` (query.py lines 382 to 395)
over the accumulated (regions, difficulties, seasons) counts; `none` models
a raised `AttributeError`/`TypeError` on a record whose `location` or
`trail_details` is a present non-dict, or whose key is unhashable. -/
def statsStep (t : Trail) (acc : Counts × Counts × Counts) :
    Option (Counts × Counts × Counts) :=
  match asObj (pyGetD t "location" (.obj [])) with
  | none => none
  | some loc =>
    let region := pyGetD loc "region" (.str "Неизвестен регион")
    if !pyHashable region then none else
    let regions := bump acc.1 region
    match asObj (pyGetD t "trail_details" (.obj [])) with
    | none => none
    | some det =>
      let diff := pyGetD det "difficulty" (.str "Неопределена трудност")
      if !pyHashable diff then none else
      let diffs := bump acc.2.1 diff
      match pyGetD t "best_season" (.arr []) with
      | .arr ss =>
        match bumpSeasons acc.2.2 ss with
        | none => none
        | some seasons => some (regions, diffs, seasons)
      | _ => some (regions, diffs, acc.2.2)

/-- The counting loop of `get_data_statistics`. -/
def statsFold (acc : Counts × Counts × Counts) :
    List Trail → Option (Counts × Counts × Counts)
  | [] => some acc
  | t :: rest =>
    match statsStep t acc with
    | none => none
    | some acc2 => statsFold acc2 rest

/-- The statistics report of `get_data_statistics` (query.py lines 397 to
407), without the `cache_info` block (pure cache-global readback). -/
structure Stats where
  total_trails : Nat
  regions : Counts
  difficulties : Counts
  seasons : Counts
  last_updated : Option String

/-- Embedding of `get_data_statistics` (query.py lines 356 to 407), with the
loaded collection passed explicitly: an empty collection short-circuits to
the zeroed report with `last_updated = None`; otherwise the three counting
dicts are built (a type error propagating as `none`). -/
def get_data_statistics (now : String) (trails : List Trail) : Option Stats :=
  if trails.isEmpty then some ⟨0, [], [], [], none⟩ else
  match statsFold ([], [], []) trails with
  | none => none
  | some (r, d, s) => some ⟨trails.length, r, d, s, some now⟩

/-- Sum of the counter values of a counting dict. -/
def sumVals (m : Counts) : Nat := (m.map (fun p => p.2)).sum

/-- Embedding of `validate_trail_data` (query.py lines 410 to 451): six
rules checked in order, each appending one error message on failure (the
quotation marks of the source messages are omitted); returns
`(len(errors) == 0, errors)`. -/
def validate_trail_data (trail : Trail) : Bool × List String :=
  let errors : List String := []
  let errors := if pyTruthy (pyGetD trail "id" .null) then errors
    else errors ++ ["Липсва задължителното поле: id"]
  let errors := if pyTruthy (pyGetD trail "name" .null) then errors
    else errors ++ ["Липсва задължителното поле: name"]
  let errors := if has_valid_coordinates trail then errors
    else errors ++ ["Невалидни или липсващи координати"]
  let errors := if isObjVal (pyGetD trail "location" (.obj [])) then errors
    else errors ++ ["Полето location трябва да бъде обект"]
  let errors := if isObjVal (pyGetD trail "trail_details" (.obj [])) then errors
    else errors ++ ["Полето trail_details трябва да бъде обект"]
  let errors := if isArrVal (pyGetD trail "best_season" (.arr [])) then errors
    else errors ++ ["Полето best_season трябва да бъде списък"]
  (errors.isEmpty, errors)

end EcoTrails

namespace EcoTrails

/-- After `d[k] = v`, looking up `k` yields `v`. -/
theorem pyGet_pySet_self (d : Trail) (k : String) (v : JVal) :
    pyGet (pySet d k v) k = some v := by
  unfold pySet
  split
  case isTrue h =>
    induction d with
    | nil => simp at h
    | cons p rest ih =>
      by_cases hp : (p.1 == k) = true
      · simp [pyGet, List.find?, hp]
      · simp only [List.any_cons, hp, Bool.false_or] at h
        simp only [List.map_cons, if_neg hp]
        simpa [pyGet, List.find?, hp] using ih h
  case isFalse h =>
    have hnone : d.find? (fun p => p.1 == k) = none := by
      rw [List.find?_eq_none]
      intro x hx hpx
      exact h (List.any_eq_true.mpr ⟨x, hx, hpx⟩)
    simp [pyGet, List.find?_append, hnone, List.find?]

/-- After `d[k1] = v`, looking up a different key `k` is unchanged. -/
theorem pyGet_pySet_ne (d : Trail) (k k1 : String) (v : JVal) (h : k ≠ k1) :
    pyGet (pySet d k1 v) k = pyGet d k := by
  have hk1k : (k1 == k) = false := by
    simpa using fun hh => h hh.symm
  unfold pySet
  split
  case isTrue ha =>
    clear ha
    induction d with
    | nil => rfl
    | cons p rest ih =>
      by_cases hp : (p.1 == k1) = true
      · have hpk : (p.1 == k) = false := by
          have hp1 : p.1 = k1 := by simpa using hp
          rw [hp1]
          exact hk1k
        simp only [List.map_cons, if_pos hp]
        simp [pyGet, List.find?, hpk, hk1k] at ih ⊢
        exact ih
      · by_cases hpk : (p.1 == k) = true
        · simp [pyGet, List.find?, hp, hpk]
        · simp [pyGet, List.find?, hp, hpk] at ih ⊢
          exact ih
  case isFalse _ =>
    simp [pyGet, List.find?_append, List.find?, hk1k]

/-- Stamping sets `_index` to the position in the source list. -/
theorem pyGet_stampRecord_index (now : String) (i : Nat) (d : Trail) :
    pyGet (stampRecord now i d) "_index" = some (.num (i : Rat)) :=
  pyGet_pySet_self _ _ _

/-- Stamping leaves every key other than the two metadata keys unchanged. -/
theorem pyGet_stampRecord (now : String) (i : Nat) (d : Trail) (k : String)
    (h1 : k ≠ "_loaded_at") (h2 : k ≠ "_index") :
    pyGet (stampRecord now i d) k = pyGet d k := by
  unfold stampRecord
  rw [pyGet_pySet_ne _ _ _ _ h2, pyGet_pySet_ne _ _ _ _ h1]

/-- The per-element admission decision of the load loop, as a function of
the enumerated source position. -/
def admitOne (now : String) (p : Nat × JVal) : Option Trail :=
  match p.2 with
  | .obj d =>
    if pyTruthy (pyGetD d "id" .null) then some (stampRecord now p.1 d) else none
  | _ => none

/-- The load loop is the enumerate-filter-stamp of the source list. -/
theorem loadGo_eq_filterMap (now : String) (src : List JVal) :
    ∀ i, loadGo now i src = (List.enumFrom i src).filterMap (admitOne now) := by
  induction src with
  | nil => intro i; rfl
  | cons v rest ih =>
    intro i
    cases v with
    | obj d =>
      by_cases hid : pyTruthy (pyGetD d "id" .null) = true
      · simp [loadGo, List.enumFrom, List.filterMap_cons, admitOne, hid, ih]
      · simp [loadGo, List.enumFrom, List.filterMap_cons, admitOne, hid, ih]
    | null => simp [loadGo, List.enumFrom, List.filterMap_cons, admitOne, ih]
    | bool b => simp [loadGo, List.enumFrom, List.filterMap_cons, admitOne, ih]
    | num q => simp [loadGo, List.enumFrom, List.filterMap_cons, admitOne, ih]
    | str s => simp [loadGo, List.enumFrom, List.filterMap_cons, admitOne, ih]
    | arr l => simp [loadGo, List.enumFrom, List.filterMap_cons, admitOne, ih]

/-- The load loop distributes over appending source segments. -/
theorem loadGo_append (now : String) (xs ys : List JVal) :
    ∀ i, loadGo now i (xs ++ ys) =
      loadGo now i xs ++ loadGo now (i + xs.length) ys := by
  intro i
  rw [loadGo_eq_filterMap, loadGo_eq_filterMap, loadGo_eq_filterMap,
    List.enumFrom_append, List.filterMap_append]

/-- Every record produced by the load loop is a stamped source dict that
passed the id admission check. -/
theorem mem_loadGo (now : String) (xs : List JVal) :
    ∀ i t, t ∈ loadGo now i xs → ∃ j d, JVal.obj d ∈ xs ∧
      pyTruthy (pyGetD d "id" .null) = true ∧ t = stampRecord now j d := by
  induction xs with
  | nil => intro i t h; cases h
  | cons v rest ih =>
    intro i t h
    cases v with
    | obj d =>
      by_cases hid : pyTruthy (pyGetD d "id" .null) = true
      · rw [loadGo, if_pos hid] at h
        rcases List.mem_cons.mp h with h | h
        · exact ⟨i, d, List.mem_cons_self _ _, hid, h⟩
        · rcases ih _ _ h with ⟨j, d2, hmem, htr, heq⟩
          exact ⟨j, d2, List.mem_cons_of_mem _ hmem, htr, heq⟩
      · rw [loadGo, if_neg hid] at h
        rcases ih _ _ h with ⟨j, d2, hmem, htr, heq⟩
        exact ⟨j, d2, List.mem_cons_of_mem _ hmem, htr, heq⟩
    | null =>
      rcases ih _ _ h with ⟨j, d2, hmem, htr, heq⟩
      exact ⟨j, d2, List.mem_cons_of_mem _ hmem, htr, heq⟩
    | bool b =>
      rcases ih _ _ h with ⟨j, d2, hmem, htr, heq⟩
      exact ⟨j, d2, List.mem_cons_of_mem _ hmem, htr, heq⟩
    | num q =>
      rcases ih _ _ h with ⟨j, d2, hmem, htr, heq⟩
      exact ⟨j, d2, List.mem_cons_of_mem _ hmem, htr, heq⟩
    | str s =>
      rcases ih _ _ h with ⟨j, d2, hmem, htr, heq⟩
      exact ⟨j, d2, List.mem_cons_of_mem _ hmem, htr, heq⟩
    | arr l =>
      rcases ih _ _ h with ⟨j, d2, hmem, htr, heq⟩
      exact ⟨j, d2, List.mem_cons_of_mem _ hmem, htr, heq⟩

/-- A cold load of the canonical file runs the admission loop on the list. -/
theorem load_trail_data_ecoFile (now : String) (m : Nat) (src : List JVal) :
    load_trail_data now (ecoFile m src) = loadGo now 0 src := rfl

end EcoTrails

namespace EcoTrails

/-- A record the search loop accepts necessarily passed the coordinate
pre-filter: the loop `continue`s past invalid-coordinate records before any
field is examined. -/
theorem searchOne_valid_coordinates (q : String) (t : Trail)
    (h : searchOne q t = some true) : has_valid_coordinates t = true := by
  by_cases hv : has_valid_coordinates t = true
  · exact hv
  · rw [searchOne, if_pos (by simp [Bool.eq_false_iff.mpr hv])] at h
    cases h

/-- A normal return of the search loop is exactly the in-order filter of the
collection by the per-record match. -/
theorem searchGo_eq_filter (q : String) :
    ∀ (trails res : List Trail), searchGo q trails = some res →
      res = trails.filter (fun t => searchOne q t == some true) := by
  intro trails
  induction trails with
  | nil =>
    intro res h
    simp [searchGo] at h
    subst h
    rfl
  | cons t rest ih =>
    intro res h
    rw [searchGo] at h
    cases h1 : searchOne q t with
    | none => rw [h1] at h; cases h
    | some m =>
      rw [h1] at h
      cases h2 : searchGo q rest with
      | none => rw [h2] at h; cases h
      | some r =>
        rw [h2] at h
        simp at h
        cases m with
        | true =>
          rw [← h, List.filter_cons]
          simp [h1, ih r h2]
        | false =>
          rw [← h, List.filter_cons]
          simp [h1, ih r h2]

end EcoTrails

namespace EcoTrails

/-- Incrementing a counting dict raises the total of its values by one. -/
theorem sumVals_bump (k : JVal) : ∀ m : Counts, sumVals (bump m k) = sumVals m + 1 := by
  intro m
  induction m with
  | nil => rfl
  | cons p rest ih =>
    cases p with
    | mk k1 n =>
      by_cases hk : pyKeyEq k1 k = true
      · simp [bump, hk, sumVals]
        omega
      · simp [bump, hk, sumVals] at ih ⊢
        omega

/-- One statistics iteration bumps exactly one difficulty bucket. -/
theorem statsStep_difficulties (t : Trail) (acc acc2 : Counts × Counts × Counts)
    (h : statsStep t acc = some acc2) :
    sumVals acc2.2.1 = sumVals acc.2.1 + 1 := by
  unfold statsStep at h
  split at h
  · cases h
  · dsimp only at h
    split at h
    · cases h
    · split at h
      · cases h
      · split at h
        · cases h
        · split at h
          · split at h
            · cases h
            · cases h
              simp [sumVals_bump]
          all_goals (cases h; simp [sumVals_bump])

/-- Over a whole collection, the difficulty totals grow by its length. -/
theorem statsFold_difficulties :
    ∀ (trails : List Trail) (acc acc2 : Counts × Counts × Counts),
      statsFold acc trails = some acc2 →
      sumVals acc2.2.1 = sumVals acc.2.1 + trails.length := by
  intro trails
  induction trails with
  | nil =>
    intro acc acc2 h
    simp [statsFold] at h
    simp [← h]
  | cons t rest ih =>
    intro acc acc2 h
    rw [statsFold] at h
    cases h1 : statsStep t acc with
    | none => rw [h1] at h; cases h
    | some a2 =>
      rw [h1] at h
      have := ih a2 acc2 h
      have h2 := statsStep_difficulties t acc a2 h1
      simp [List.length_cons]
      omega

end EcoTrails

namespace EcoTrails

/-- A record matching the single region criterion of the C1 scenario. -/
def C1sample : Trail :=
  [("id", .str "t1"), ("name", .str "Rila Lakes"),
   ("location", .obj [("region", .str "Rila")])]

/-- C1 counterexample: a loaded collection holding one record that satisfies
the provided region criterion, yet `advanced_search` returns the empty
sequence instead of that record. -/
theorem C1_counterexample :
    advanced_search_spec (some "Rila") none none [C1sample] = [C1sample] ∧
    advanced_search (some "Rila") none none [C1sample] = [] := ⟨rfl, rfl⟩

/-- C1 (amended): for every loaded collection and every combination of
provided criteria, `advancedSearch` returns the empty sequence; the
criteria are never applied because the filtering loop ranges over the empty
result accumulator. -/
theorem C1_amended_always_empty (region difficulty best_season : Option String)
    (trails : List Trail) :
    advanced_search region difficulty best_season trails = [] := rfl

/-- C2: for every loaded collection and every combination of region,
difficulty and season arguments (including none), `advancedSearch` returns
the empty sequence, since its loop iterates the empty result accumulator
rather than the loaded collection. -/
theorem C2_advanced_search_no_op (region difficulty best_season : Option String)
    (trails : List Trail) :
    advanced_search region difficulty best_season trails = [] := rfl

/-- C7: `validate(record)` accumulates, without short-circuiting, one
message per failed rule in the fixed order id, name, coordinates, location
mapping, trail_details mapping, best_season sequence, and the returned
validity flag is true exactly when the error list is empty. -/
theorem C7_validate_rules (trail : Trail) :
    (validate_trail_data trail).2 =
      (if pyTruthy (pyGetD trail "id" .null) then []
        else ["Липсва задължителното поле: id"]) ++
      (if pyTruthy (pyGetD trail "name" .null) then []
        else ["Липсва задължителното поле: name"]) ++
      (if has_valid_coordinates trail then []
        else ["Невалидни или липсващи координати"]) ++
      (if isObjVal (pyGetD trail "location" (.obj [])) then []
        else ["Полето location трябва да бъде обект"]) ++
      (if isObjVal (pyGetD trail "trail_details" (.obj [])) then []
        else ["Полето trail_details трябва да бъде обект"]) ++
      (if isArrVal (pyGetD trail "best_season" (.arr [])) then []
        else ["Полето best_season трябва да бъде списък"]) ∧
    (validate_trail_data trail).1 = (validate_trail_data trail).2.isEmpty := by
  constructor
  · unfold validate_trail_data
    cases pyTruthy (pyGetD trail "id" JVal.null) <;>
      cases pyTruthy (pyGetD trail "name" JVal.null) <;>
      cases has_valid_coordinates trail <;>
      cases isObjVal (pyGetD trail "location" (JVal.obj [])) <;>
      cases isObjVal (pyGetD trail "trail_details" (JVal.obj [])) <;>
      cases isArrVal (pyGetD trail "best_season" (JVal.arr [])) <;> rfl
  · rfl

/-- The dict part of the C9 record, before load-time stamping: valid
coordinates, but a numeric entry inside `location.keywords`. -/
def C9inner : Trail :=
  [("id", .str "k1"), ("name", .str "Alpine hut"),
   ("location", .obj [("coordinates", .obj [("lat", .num 42), ("lng", .num 23)]),
     ("keywords", .arr [.num 5])])]

/-- The C9 record as the loader admits it. -/
def C9sample : Trail := stampRecord "t0" 0 C9inner

/-- C9: `search` is not total over loader-admitted records: the loader
admits this record, it passes the coordinate check, and a query matching
none of the earlier fields reaches the non-string keyword, where the
lowering raises a type error that propagates (`none`). -/
theorem C9_search_not_total :
    load_trail_data "t0" (ecoFile 0 [.obj C9inner]) = [C9sample] ∧
    has_valid_coordinates C9sample = true ∧
    search_trails "zzz" [C9sample] = none := ⟨rfl, rfl, rfl⟩

/-- C4: `load()` never raises: an absent file, malformed JSON, a non-object
top level, or an `eco_trails` field that is not a list each produce the
empty collection instead of a propagated exception. -/
theorem C4_load_degrades (now : String) :
    load_trail_data now .absent = [] ∧
    (∀ m, load_trail_data now (.present m .malformed) = []) ∧
    (∀ m v, isObjVal v = false →
      load_trail_data now (.present m (.parsed v)) = []) ∧
    (∀ m fields, ecoTrailsIsList fields = false →
      load_trail_data now (.present m (.parsed (.obj fields))) = []) := by
  refine ⟨rfl, fun m => rfl, ?_, ?_⟩
  · intro m v h
    cases v <;> first | rfl | simp [isObjVal] at h
  · intro m fields h
    unfold ecoTrailsIsList at h
    cases hf : pyGet fields "eco_trails" with
    | none =>
      simp [load_trail_data, load_stateful, loadRead, parseEcoTrails, hf]
    | some v2 =>
      rw [hf] at h
      cases v2 <;>
        simp_all [load_trail_data, load_stateful, loadRead, parseEcoTrails, hf]

/-- C4 witness: the degradation equations at concrete inputs, the two
conditional ones discharged at a string top level and a null `eco_trails`. -/
theorem C4_witness :
    isObjVal (JVal.str "x") = false ∧
    ecoTrailsIsList [("eco_trails", JVal.null)] = false ∧
    load_trail_data "t" (.present 3 (.parsed (JVal.str "x"))) = [] ∧
    load_trail_data "t" (.present 3 (.parsed (.obj [("eco_trails", JVal.null)]))) = [] :=
  ⟨rfl, rfl, (C4_load_degrades "t").2.2.1 3 _ rfl, (C4_load_degrades "t").2.2.2 3 _ rfl⟩

end EcoTrails

namespace EcoTrails

/-- A coordinate-valid record named so that its lowered name contains any
query the C3 scenarios use. -/
def C3sample : Trail :=
  [("id", .str "s1"), ("name", .str "Rila Lakes"),
   ("location", .obj [("coordinates", .obj [("lat", .num 42), ("lng", .num 23)])])]

/-- A coordinate-valid record whose `name` is numeric, so field matching
raises. -/
def C3bad : Trail :=
  [("id", .str "b1"), ("name", .num 1),
   ("location", .obj [("coordinates", .obj [("lat", .num 10), ("lng", .num 10)])])]

/-- C3 counterexample: for the non-empty query consisting of one space, the
record matches the trimmed lower-cased query (the per-record matcher
accepts it), yet `search` returns the empty sequence; and on a record with
a non-string `name` the search does not return a sequence at all. -/
theorem C3_counterexample :
    searchOne (pyStrip (pyLower " ")) C3sample = some true ∧
    search_trails " " [C3sample] = some [] ∧
    search_trails "hut" [C3bad] = none := ⟨rfl, rfl, rfl⟩

/-- C3 (amended): for every query whose lower-cased stripped form is
non-empty, whenever `search` returns a sequence it is exactly the in-order
filter of the loaded collection by the per-record field matcher, each
record at most once (a sublist of the collection), and every returned
record passed the coordinate-validity check. -/
theorem C3_search_filter (q : String) (trails res : List Trail)
    (hq : (pyStrip (pyLower q)).data.isEmpty = false)
    (h : search_trails q trails = some res) :
    res = trails.filter (fun t => searchOne (pyStrip (pyLower q)) t == some true) ∧
    res.Sublist trails ∧
    ∀ t, t ∈ res → has_valid_coordinates t = true ∧
      searchOne (pyStrip (pyLower q)) t = some true := by
  have hqe : q.data.isEmpty = false := by
    cases hq0 : q.data.isEmpty
    · rfl
    · exfalso
      have h2 : q.data = [] := by simpa using hq0
      have h3 : (pyStrip (pyLower q)).data.isEmpty = true := by
        unfold pyStrip pyLower
        rw [h2]
        rfl
      rw [h3] at hq
      cases hq
  simp only [search_trails, hqe, hq, Bool.false_eq_true, if_false] at h
  have hfil := searchGo_eq_filter _ _ _ h
  refine ⟨hfil, ?_, ?_⟩
  · rw [hfil]
    exact List.filter_sublist _
  · intro t ht
    rw [hfil] at ht
    rcases List.mem_filter.mp ht with ⟨-, hp⟩
    have hsm : searchOne (pyStrip (pyLower q)) t = some true := by
      simpa using hp
    exact ⟨searchOne_valid_coordinates _ _ hsm, hsm⟩

/-- C3 witness: the amended characterisation applied to the query rila over
a singleton collection whose record matches by name. -/
theorem C3_witness :
    [C3sample] =
      [C3sample].filter (fun t => searchOne (pyStrip (pyLower "rila")) t == some true) ∧
    List.Sublist [C3sample] [C3sample] ∧
    (∀ t, t ∈ [C3sample] → has_valid_coordinates t = true ∧
      searchOne (pyStrip (pyLower "rila")) t = some true) :=
  C3_search_filter "rila" [C3sample] [C3sample] rfl rfl

/-- C6: every record of a loaded collection is an object-shaped record with
a truthy (present, non-empty) `id`; a record missing only `name` is still
retained; the collection is the in-order enumerate-filter-stamp of the
source list, so each retained record carries `_index` equal to its position
in the original unfiltered `eco_trails` list. -/
theorem C6_load_admission (now : String) (m : Nat) (src : List JVal) :
    load_trail_data now (ecoFile m src) = src.enum.filterMap (admitOne now) ∧
    (∀ r, r ∈ load_trail_data now (ecoFile m src) →
      pyTruthy (pyGetD r "id" .null) = true ∧
      ∃ i d, src.get? i = some (.obj d) ∧ r = stampRecord now i d ∧
        pyGet r "_index" = some (.num (i : Rat))) ∧
    (∀ i d, src.get? i = some (.obj d) → pyTruthy (pyGetD d "id" .null) = true →
      stampRecord now i d ∈ load_trail_data now (ecoFile m src)) := by
  have hchar : load_trail_data now (ecoFile m src) = src.enum.filterMap (admitOne now) := by
    rw [load_trail_data_ecoFile, loadGo_eq_filterMap]
    rfl
  refine ⟨hchar, ?_, ?_⟩
  · intro r hr
    rw [hchar] at hr
    rcases List.mem_filterMap.mp hr with ⟨⟨i, v⟩, hmem, hadm⟩
    have hv : src.get? i = some v := List.mk_mem_enum_iff_get?.mp hmem
    cases v with
    | obj d =>
      by_cases hid : pyTruthy (pyGetD d "id" .null) = true
      · simp only [admitOne, hid, if_true, Option.some.injEq] at hadm
        refine ⟨?_, i, d, hv, hadm.symm, ?_⟩
        · rw [← hadm]
          unfold pyGetD
          rw [pyGet_stampRecord now i d "id" (by decide) (by decide)]
          exact hid
        · rw [← hadm]
          exact pyGet_stampRecord_index now i d
      · simp [admitOne, hid] at hadm
    | null => simp [admitOne] at hadm
    | bool b => simp [admitOne] at hadm
    | num q => simp [admitOne] at hadm
    | str s => simp [admitOne] at hadm
    | arr l => simp [admitOne] at hadm
  · intro i d hget hid
    rw [hchar]
    exact List.mem_filterMap.mpr
      ⟨(i, .obj d), List.mk_mem_enum_iff_get?.mpr hget, by simp [admitOne, hid]⟩

/-- C6 witness: the retention clause applied to a one-record source whose
record has an id but no name. -/
theorem C6_witness :
    stampRecord "t" 0 [("id", JVal.str "a")] ∈
      load_trail_data "t" (ecoFile 0 [JVal.obj [("id", JVal.str "a")]]) :=
  (C6_load_admission "t" 0 [JVal.obj [("id", JVal.str "a")]]).2.2 0
    [("id", JVal.str "a")] rfl rfl

end EcoTrails

namespace EcoTrails

/-- C5 counterexample: with a cold cache and a malformed file, the first
`load()` reads the file and returns empty without caching anything, so a
second `load()` with the file unchanged reads the file again. -/
theorem C5_counterexample :
    (load_stateful "a" (.present 7 .malformed) ⟨none, none⟩).result = [] ∧
    (load_stateful "a" (.present 7 .malformed) ⟨none, none⟩).didRead = true ∧
    (load_stateful "b" (.present 7 .malformed)
      (load_stateful "a" (.present 7 .malformed) ⟨none, none⟩).cache).didRead = true :=
  ⟨rfl, rfl, rfl⟩

/-- C5 (amended): a cached collection whose stored timestamp equals the
file timestamp is returned unchanged with no read; two consecutive `load()`
calls on an unchanged file always return the same collection; and when the
first call parsed the file successfully (so the cache was filled), the
second call performs no file read. -/
theorem C5_cache_behaviour :
    (∀ now m content d,
      load_stateful now (.present m content) ⟨some d, some m⟩ =
        ⟨d, ⟨some d, some m⟩, false⟩) ∧
    (∀ now now2 fs cache,
      (load_stateful now2 fs (load_stateful now fs cache).cache).result =
        (load_stateful now fs cache).result) ∧
    (∀ now now2 m v cache ts, parseEcoTrails now v = .ok ts →
      (load_stateful now2 (.present m (.parsed v))
        (load_stateful now (.present m (.parsed v)) cache).cache).didRead = false) := by
  refine ⟨?_, ?_, ?_⟩
  · intro now m content d
    simp [load_stateful]
  · intro now now2 fs cache
    cases fs with
    | absent => rfl
    | present m content =>
      rcases cache with ⟨cd, cs⟩
      cases cd with
      | some d =>
        cases hs : ((cs : Option Nat) == some m) with
        | true => simp [load_stateful, hs]
        | false =>
          cases content with
          | malformed => simp [load_stateful, loadRead, hs]
          | parsed v =>
            cases v
            case obj fields =>
              cases hf : pyGet fields "eco_trails" with
              | none => simp [load_stateful, loadRead, parseEcoTrails, hs, hf]
              | some v2 =>
                cases v2 <;> simp [load_stateful, loadRead, parseEcoTrails, hs, hf]
            all_goals simp [load_stateful, loadRead, parseEcoTrails, hs]
      | none =>
        cases content with
        | malformed => simp [load_stateful, loadRead]
        | parsed v =>
          cases v
          case obj fields =>
            cases hf : pyGet fields "eco_trails" with
            | none => simp [load_stateful, loadRead, parseEcoTrails, hf]
            | some v2 =>
              cases v2 <;> simp [load_stateful, loadRead, parseEcoTrails, hf]
          all_goals simp [load_stateful, loadRead, parseEcoTrails]
  · intro now now2 m v cache ts hok
    rcases cache with ⟨cd, cs⟩
    cases cd with
    | some d =>
      cases hs : ((cs : Option Nat) == some m) with
      | true => simp [load_stateful, hs]
      | false => simp [load_stateful, loadRead, hs, hok]
    | none => simp [load_stateful, loadRead, hok]

/-- C5 witness: the no-second-read clause applied to a well-formed file
parsed from a cold cache. -/
theorem C5_witness :
    (load_stateful "b" (.present 1 (.parsed (.obj [("eco_trails", JVal.arr [])])))
      (load_stateful "a" (.present 1 (.parsed (.obj [("eco_trails", JVal.arr [])])))
        ⟨none, none⟩).cache).didRead = false :=
  C5_cache_behaviour.2.2 "a" "b" 1 _ ⟨none, none⟩ [] rfl

end EcoTrails

namespace EcoTrails

/-- A loader-admissible record whose `trail_details` is a string, on which
the statistics pass raises. -/
def C8bad : Trail := [("id", .str "x"), ("trail_details", .str "hard")]

/-- A record listing two seasons, making the season totals exceed the
record count. -/
def C8season : Trail := [("id", .str "s1"), ("best_season", .arr [.str "A", .str "B"])]

/-- C8 counterexample: the loader admits a record whose `trail_details` is
a plain string, and `statistics()` on that loaded collection raises a type
error (`none`) instead of reporting any totals. -/
theorem C8_counterexample :
    load_trail_data "t" (ecoFile 0 [.obj C8bad]) = [stampRecord "t" 0 C8bad] ∧
    get_data_statistics "t" [stampRecord "t" 0 C8bad] = none := ⟨rfl, rfl⟩

/-- C8 (amended): whenever `statistics()` completes on a loaded collection,
`total_trails` equals the collection length and the difficulty counts sum
to `total_trails`; an empty collection yields the zeroed report; and the
season counts can exceed `total_trails` when a record lists several
seasons. -/
theorem C8_statistics (now : String) (trails : List Trail) (st : Stats)
    (h : get_data_statistics now trails = some st) :
    st.total_trails = trails.length ∧
    sumVals st.difficulties = trails.length ∧
    get_data_statistics now ([] : List Trail) = some ⟨0, [], [], [], none⟩ ∧
    ∃ ts st2, get_data_statistics now ts = some st2 ∧
      st2.total_trails < sumVals st2.seasons := by
  have hmain : st.total_trails = trails.length ∧ sumVals st.difficulties = trails.length := by
    cases he : trails.isEmpty with
    | true =>
      have h0 : trails = [] := List.isEmpty_iff.mp he
      subst h0
      simp [get_data_statistics] at h
      rw [← h]
      exact ⟨rfl, rfl⟩
    | false =>
      unfold get_data_statistics at h
      simp only [he, Bool.false_eq_true, if_false] at h
      cases hf : statsFold ([], [], []) trails with
      | none => rw [hf] at h; cases h
      | some acc =>
        rcases acc with ⟨r, ⟨d, s⟩⟩
        rw [hf] at h
        injection h with h2
        rw [← h2]
        refine ⟨rfl, ?_⟩
        have hsum := statsFold_difficulties trails ([], [], []) (r, d, s) hf
        simpa [sumVals] using hsum
  refine ⟨hmain.1, hmain.2, rfl, ?_⟩
  refine ⟨[C8season],
    ⟨1, [(.str "Неизвестен регион", 1)], [(.str "Неопределена трудност", 1)],
     [(.str "A", 1), (.str "B", 1)], some now⟩, rfl, by simp [sumVals]⟩

/-- C8 witness: the amended statement applied to the singleton two-season
collection, on which statistics completes. -/
theorem C8_witness :
    (⟨1, [(.str "Неизвестен регион", 1)], [(.str "Неопределена трудност", 1)],
      [(.str "A", 1), (.str "B", 1)], some "n"⟩ : Stats).total_trails =
        [C8season].length ∧
    sumVals (⟨1, [(.str "Неизвестен регион", 1)], [(.str "Неопределена трудност", 1)],
      [(.str "A", 1), (.str "B", 1)], some "n"⟩ : Stats).difficulties =
        [C8season].length ∧
    get_data_statistics "n" ([] : List Trail) = some ⟨0, [], [], [], none⟩ ∧
    ∃ ts st2, get_data_statistics "n" ts = some st2 ∧
      st2.total_trails < sumVals st2.seasons :=
  C8_statistics "n" [C8season]
    ⟨1, [(.str "Неизвестен регион", 1)], [(.str "Неопределена трудност", 1)],
     [(.str "A", 1), (.str "B", 1)], some "n"⟩ rfl

end EcoTrails

namespace EcoTrails

/-- C10: id uniqueness is not enforced. If the source list holds two
object-shaped records with the same non-empty string id (anywhere after a
prefix containing no record with that id), both are retained at their
source positions, and `getById` with that id returns the stamped copy of
the one occurring earlier in load order. -/
theorem C10_duplicate_ids (now : String) (m : Nat) (pre mid post : List JVal)
    (d1 d2 : Trail) (s : String)
    (hs : s.data.isEmpty = false)
    (h1 : pyGet d1 "id" = some (.str s))
    (h2 : pyGet d2 "id" = some (.str s))
    (hpre : ∀ d, JVal.obj d ∈ pre → pyStrEq s (pyGetD d "id" .null) = false) :
    stampRecord now pre.length d1 ∈
      load_trail_data now (ecoFile m (pre ++ .obj d1 :: (mid ++ .obj d2 :: post))) ∧
    stampRecord now (pre.length + 1 + mid.length) d2 ∈
      load_trail_data now (ecoFile m (pre ++ .obj d1 :: (mid ++ .obj d2 :: post))) ∧
    get_trail_by_id s
        (load_trail_data now (ecoFile m (pre ++ .obj d1 :: (mid ++ .obj d2 :: post)))) =
      some (stampRecord now pre.length d1) := by
  have ht1 : pyTruthy (pyGetD d1 "id" .null) = true := by
    unfold pyGetD
    rw [h1]
    simp [pyTruthy, hs]
  have ht2 : pyTruthy (pyGetD d2 "id" .null) = true := by
    unfold pyGetD
    rw [h2]
    simp [pyTruthy, hs]
  have hload : load_trail_data now (ecoFile m (pre ++ .obj d1 :: (mid ++ .obj d2 :: post))) =
      loadGo now 0 pre ++ stampRecord now pre.length d1 ::
        (loadGo now (pre.length + 1) mid ++
          stampRecord now (pre.length + 1 + mid.length) d2 ::
            loadGo now (pre.length + 1 + mid.length + 1) post) := by
    rw [load_trail_data_ecoFile, loadGo_append, Nat.zero_add, loadGo, if_pos ht1,
      loadGo_append, loadGo, if_pos ht2]
  refine ⟨?_, ?_, ?_⟩
  · rw [hload]
    exact List.mem_append_right _ (List.mem_cons_self _ _)
  · rw [hload]
    refine List.mem_append_right _ (List.mem_cons_of_mem _ ?_)
    exact List.mem_append_right _ (List.mem_cons_self _ _)
  · have hp1 : pyStrEq s (pyGetD (stampRecord now pre.length d1) "id" .null) = true := by
      unfold pyGetD
      rw [pyGet_stampRecord now pre.length d1 "id" (by decide) (by decide), h1]
      simp [pyStrEq]
    have hfindpre : List.find? (fun t => pyStrEq s (pyGetD t "id" .null))
        (loadGo now 0 pre) = none := by
      rw [List.find?_eq_none]
      intro x hx hpx
      rcases mem_loadGo now pre 0 x hx with ⟨j, d, hdmem, _, hxeq⟩
      subst hxeq
      have hkey : pyGetD (stampRecord now j d) "id" .null = pyGetD d "id" .null := by
        unfold pyGetD
        rw [pyGet_stampRecord now j d "id" (by decide) (by decide)]
      rw [hkey, hpre d hdmem] at hpx
      cases hpx
    rw [hload]
    unfold get_trail_by_id
    rw [if_neg (by simp [hs])]
    rw [List.find?_append, hfindpre]
    simp [List.find?_cons, hp1]

/-- C10 witness: a two-record source sharing the id x; both stamped records
are loaded and the lookup returns the first. -/
theorem C10_witness :
    stampRecord "t" 0 [("id", JVal.str "x"), ("name", JVal.str "A")] ∈
      load_trail_data "t" (ecoFile 5
        ([] ++ .obj [("id", JVal.str "x"), ("name", JVal.str "A")] ::
          [] ++ .obj [("id", JVal.str "x")] :: [])) ∧
    stampRecord "t" 1 [("id", JVal.str "x")] ∈
      load_trail_data "t" (ecoFile 5
        ([] ++ .obj [("id", JVal.str "x"), ("name", JVal.str "A")] ::
          [] ++ .obj [("id", JVal.str "x")] :: [])) ∧
    get_trail_by_id "x"
        (load_trail_data "t" (ecoFile 5
          ([] ++ .obj [("id", JVal.str "x"), ("name", JVal.str "A")] ::
            [] ++ .obj [("id", JVal.str "x")] :: []))) =
      some (stampRecord "t" 0 [("id", JVal.str "x"), ("name", JVal.str "A")]) :=
  C10_duplicate_ids "t" 5 [] [] []
    [("id", JVal.str "x"), ("name", JVal.str "A")] [("id", JVal.str "x")] "x"
    rfl rfl rfl (fun _ h => nomatch h)

end EcoTrails
